import Mathlib

/-!
Verification of `gather_samplers.py` (video-grid generator).

The script is embedded shallowly: path parsing (`find_videos`), grouping
(`group_by_task_model`), HTML rendering (`render_html`) and the `main`
driver are translated to executable Lean definitions over `List Char`
strings.  Python specifics that matter are modelled explicitly:

* Python negative list indexing (`parts[model_idx - 1]` wraps to the last
  element when `model_idx = 0`);
* `parts[model_idx + 1]` raising `IndexError` when out of range (modelled
  with `Except Unit`);
* `re.search(r"(\d+)", s)`: the leftmost maximal run of *Unicode decimal
  digits* (category Nd), since Python's `\d` is not ASCII-only;
* Python's `list.sort(key=...)`: a stable merge sort by the key tuple,
  modelled with a stable structural insertion sort and a boolean key order;
* `str` comparison: lexicographic by code point;
* `json.dumps` with default options (`ensure_ascii=True`).
-/

/-! ## Python string order: lexicographic comparison by code point -/

def listLt : List Char → List Char → Bool
  | [], [] => false
  | [], _ :: _ => true
  | _ :: _, [] => false
  | a :: as, b :: bs =>
    if a.toNat < b.toNat then true
    else if b.toNat < a.toNat then false
    else listLt as bs

def listLe : List Char → List Char → Bool
  | [], _ => true
  | _ :: _, [] => false
  | a :: as, b :: bs =>
    if a.toNat < b.toNat then true
    else if b.toNat < a.toNat then false
    else listLe as bs

theorem charEqOfToNatEq {a b : Char} (h : a.toNat = b.toNat) : a = b :=
  Char.ext (UInt32.toNat.inj h)

theorem listLe_total : ∀ a b : List Char, (listLe a b || listLe b a) = true
  | [], _ => by simp [listLe]
  | _ :: _, [] => by simp [listLe]
  | a :: as, b :: bs => by
    simp only [listLe]
    rcases Nat.lt_trichotomy a.toNat b.toNat with h | h | h
    · simp [h]
    · have h1 : ¬ a.toNat < b.toNat := by omega
      have h2 : ¬ b.toNat < a.toNat := by omega
      simp only [h1, h2, if_false]
      simpa using listLe_total as bs
    · simp [h, Nat.lt_asymm h]

theorem listLe_trans : ∀ a b c : List Char,
    listLe a b = true → listLe b c = true → listLe a c = true
  | [], _, _, _, _ => by simp [listLe]
  | _ :: _, [], _, h, _ => by simp [listLe] at h
  | _ :: _, _ :: _, [], _, h => by simp [listLe] at h
  | a :: as, b :: bs, c :: cs, hab, hbc => by
    simp only [listLe] at hab hbc ⊢
    by_cases h1 : a.toNat < b.toNat
    · by_cases h2 : b.toNat < c.toNat
      · simp [show a.toNat < c.toNat by omega]
      · by_cases h3 : c.toNat < b.toNat
        · simp [h2, h3] at hbc
        · simp [show a.toNat < c.toNat by omega]
    · by_cases h4 : b.toNat < a.toNat
      · simp [h1, h4] at hab
      · by_cases h2 : b.toNat < c.toNat
        · simp [show a.toNat < c.toNat by omega]
        · by_cases h3 : c.toNat < b.toNat
          · simp [h2, h3] at hbc
          · have e1 : ¬ a.toNat < c.toNat := by omega
            have e2 : ¬ c.toNat < a.toNat := by omega
            simp only [h1, h4, h2, h3, if_false, e1, e2] at hab hbc ⊢
            exact listLe_trans as bs cs hab hbc

theorem listLe_antisymm : ∀ a b : List Char,
    listLe a b = true → listLe b a = true → a = b
  | [], [], _, _ => rfl
  | [], _ :: _, _, h => by simp [listLe] at h
  | _ :: _, [], h, _ => by simp [listLe] at h
  | a :: as, b :: bs, hab, hba => by
    simp only [listLe] at hab hba
    by_cases h1 : a.toNat < b.toNat
    · have h2 : ¬ b.toNat < a.toNat := Nat.lt_asymm h1
      simp [h1, h2] at hba
    · by_cases h2 : b.toNat < a.toNat
      · simp [h1, h2] at hab
      · simp only [h1, h2, if_false] at hab hba
        have hc : a = b := charEqOfToNatEq (by omega)
        rw [hc, listLe_antisymm as bs hab hba]

def strLeB (a b : String) : Bool := listLe a.data b.data

/-! ## Substring containment (Python's `in` on strings) -/

def hasSubstrAux (pat : List Char) : List Char → Bool
  | [] => pat.isEmpty
  | c :: rest => pat.isPrefixOf (c :: rest) || hasSubstrAux pat rest

def hasSubstr (hay pat : String) : Bool := hasSubstrAux pat.data hay.data

/-! ## Unicode decimal digits and `int` parsing

Python's `re` pattern `\d` matches any character of Unicode general
category Nd (decimal digit), and `int` converts each such digit by its
decimal value.  Category Nd consists of runs of ten consecutive code
points; `ndRangeStarts` lists the first code point of each run
(Unicode 15.0). -/

def ndRangeStarts : List Nat :=
  [0x30, 0x660, 0x6F0, 0x7C0, 0x966, 0x9E6, 0xA66, 0xAE6, 0xB66, 0xBE6,
   0xC66, 0xCE6, 0xD66, 0xDE6, 0xE50, 0xED0, 0xF20, 0x1040, 0x1090, 0x17E0,
   0x1810, 0x1946, 0x19D0, 0x1A80, 0x1A90, 0x1B50, 0x1BB0, 0x1C40, 0x1C50,
   0xA620, 0xA8D0, 0xA900, 0xA9D0, 0xA9F0, 0xAA50, 0xABF0, 0xFF10,
   0x104A0, 0x10D30, 0x11066, 0x110F0, 0x11136, 0x111D0, 0x112F0, 0x11450,
   0x114D0, 0x11650, 0x116C0, 0x11730, 0x118E0, 0x11950, 0x11C50, 0x11D50,
   0x11DA0, 0x11F50, 0x16A60, 0x16AC0, 0x16B50,
   0x1D7CE, 0x1D7D8, 0x1D7E2, 0x1D7EC, 0x1D7F6,
   0x1E140, 0x1E2F0, 0x1E4F0, 0x1E950, 0x1FBF0]

def ndStart (c : Char) : Option Nat :=
  ndRangeStarts.find? (fun s => s ≤ c.toNat && c.toNat ≤ s + 9)

def pyDigit (c : Char) : Bool := (ndStart c).isSome

def digitVal (c : Char) : Nat := c.toNat - (ndStart c).getD 0

def pyInt (ds : List Char) : Nat := ds.foldl (fun a c => 10 * a + digitVal c) 0

/-- Leftmost maximal run of decimal digits, as found by
`re.search(r"(\d+)", s)`: scan to the first digit, then take the maximal
digit run from there. -/
def firstDigitRun : List Char → Option (List Char)
  | [] => none
  | c :: cs => if pyDigit c then some (c :: cs.takeWhile pyDigit) else firstDigitRun cs

/-- Embeds `int(m.group(1)) if m else None` followed by the
`iter_num if iter_num is not None else 0` defaulting in `find_videos`. -/
def iterNumOf (s : String) : Nat :=
  match firstDigitRun s.data with
  | some ds => pyInt ds
  | none => 0

/-! ## The Locator: `find_videos` -/

def VIDEO_NAME : String := "sim.mp4"

structure VideoRecord where
  path : String
  abs_path : String
  scene : String
  task : String
  model : String
  run_id : String
  iter_name : String
  iter_num : Nat
deriving DecidableEq

/-- First index whose segment contains the substring `gpt-5`
(`next((i for i, part in enumerate(parts) if 'gpt-5' in part), None)`). -/
def findModelIdx : List String → Option Nat
  | [] => none
  | s :: rest =>
    if hasSubstr s "gpt-5" then some 0 else (findModelIdx rest).map (· + 1)

def joinParts (parts : List String) : String := String.intercalate "/" parts

/-- Parse of one path found by `rglob` relative to the videos directory
(the loop body of `find_videos`).  `Except.error ()` models an
uncaught `IndexError` from `parts[model_idx + 1]`; `Except.ok none` is a
silently skipped file; `Except.ok (some r)` a produced record.
Python's `parts[model_idx - 1]` wraps to the last element when
`model_idx = 0`. -/
def parseVideo (videosDir : String) (parts : List String) : Except Unit (Option VideoRecord) :=
  let web_path := "static/videos/highlight-videos/" ++ joinParts parts
  if parts.length < 6 then Except.ok none
  else
    match findModelIdx parts with
    | none => Except.ok none
    | some i =>
      let scene := parts.getD 1 ""
      let taskIdx := if i = 0 then parts.length - 1 else i - 1
      let task := parts.getD taskIdx ""
      let model := parts.getD i ""
      if i + 1 < parts.length then
        let run_id := parts.getD (i + 1) ""
        Except.ok (some
          { path := web_path
            abs_path := videosDir ++ "/" ++ joinParts parts
            scene := scene
            task := task
            model := model
            run_id := run_id
            iter_name := run_id
            iter_num := iterNumOf run_id })
      else Except.error ()

/-- Filesystem abstraction: whether the videos directory exists, and the
relative path segments of each `sim.mp4` hit of `rglob`, in traversal
order. -/
structure FS where
  dirExists : Bool
  foundParts : List (List String)

def parseAll (videosDir : String) : List (List String) → Except Unit (List VideoRecord)
  | [] => Except.ok []
  | p :: ps => do
    let r ← parseVideo videosDir p
    let rest ← parseAll videosDir ps
    pure (match r with | none => rest | some v => v :: rest)

def videosDirStr (base : String) : String := base ++ "/static/videos/highlight-videos"

/-- The Locator: returns the lines it prints and its result
(`Except.error ()` if a parse raised). -/
def find_videos (base : String) (fs : FS) : List String × Except Unit (List VideoRecord) :=
  if !fs.dirExists then
    (["Videos directory not found at " ++ videosDirStr base], Except.ok [])
  else
    (["Searching for videos in " ++ videosDirStr base],
     parseAll (videosDirStr base) fs.foundParts)

instance {ε α : Type} [DecidableEq ε] [DecidableEq α] : DecidableEq (Except ε α) := fun a b =>
  match a, b with
  | Except.ok x, Except.ok y =>
    if h : x = y then isTrue (by rw [h]) else isFalse (by intro hc; cases hc; exact h rfl)
  | Except.error x, Except.error y =>
    if h : x = y then isTrue (by rw [h]) else isFalse (by intro hc; cases hc; exact h rfl)
  | Except.ok _, Except.error _ => isFalse (by intro hc; cases hc)
  | Except.error _, Except.ok _ => isFalse (by intro hc; cases hc)

/-! ## Stable sorting

`list.sort(key=...)` in Python is a stable sort by a total preorder.  A
stable sort's output is uniquely determined by the input order and the
preorder, so any stable sorting algorithm embeds it faithfully; we use a
structural insertion sort (kernel-reducible, unlike the well-founded
`List.mergeSort`), inserting each element before the first existing
element it is `le`-below-or-tied-with, which preserves the original
order of ties. -/

def pyInsert {α : Type} (le : α → α → Bool) (a : α) : List α → List α
  | [] => [a]
  | b :: l => if le a b then a :: b :: l else b :: pyInsert le a l

def pySort {α : Type} (le : α → α → Bool) : List α → List α
  | [] => []
  | a :: l => pyInsert le a (pySort le l)

theorem pyInsert_perm {α : Type} (le : α → α → Bool) (a : α) :
    ∀ l : List α, (pyInsert le a l).Perm (a :: l)
  | [] => List.Perm.refl _
  | b :: l => by
    simp only [pyInsert]
    split
    · exact List.Perm.refl _
    · exact ((pyInsert_perm le a l).cons b).trans (List.Perm.swap a b l)

theorem pySort_perm {α : Type} (le : α → α → Bool) :
    ∀ l : List α, (pySort le l).Perm l
  | [] => List.Perm.refl _
  | a :: l => (pyInsert_perm le a (pySort le l)).trans ((pySort_perm le l).cons a)

theorem pySort_length {α : Type} (le : α → α → Bool) (l : List α) :
    (pySort le l).length = l.length :=
  (pySort_perm le l).length_eq

theorem mem_pyInsert {α : Type} (le : α → α → Bool) (a x : α) (l : List α) :
    x ∈ pyInsert le a l ↔ x = a ∨ x ∈ l :=
  by simpa using (pyInsert_perm le a l).mem_iff

theorem pyInsert_pairwise {α : Type} (le : α → α → Bool)
    (total : ∀ x y, (le x y || le y x) = true)
    (trans : ∀ x y z, le x y = true → le y z = true → le x z = true)
    (a : α) : ∀ l : List α, l.Pairwise (le · · = true) →
      (pyInsert le a l).Pairwise (le · · = true)
  | [], _ => by simp [pyInsert]
  | b :: l, h => by
    rcases List.pairwise_cons.mp h with ⟨hb, hl⟩
    simp only [pyInsert]
    split
    · rename_i hab
      refine List.pairwise_cons.mpr ⟨?_, h⟩
      intro x hx
      rcases List.mem_cons.mp hx with rfl | hx'
      · exact hab
      · exact trans a b x hab (hb x hx')
    · rename_i hab
      have hba : le b a = true := by
        have := total a b
        simp [hab] at this ⊢
        simpa using this
      refine List.pairwise_cons.mpr ⟨?_, pyInsert_pairwise le total trans a l hl⟩
      intro x hx
      rcases (mem_pyInsert le a x l).mp hx with rfl | hx
      · exact hba
      · exact hb x hx

theorem pySort_pairwise {α : Type} (le : α → α → Bool)
    (total : ∀ x y, (le x y || le y x) = true)
    (trans : ∀ x y z, le x y = true → le y z = true → le x z = true) :
    ∀ l : List α, (pySort le l).Pairwise (le · · = true)
  | [] => by simp [pySort]
  | a :: l => pyInsert_pairwise le total trans a _ (pySort_pairwise le total trans l)

/-! ## The Aggregator: `group_by_task_model` -/

def groupKey (v : VideoRecord) : String × String := (v.task, v.model)

/-- Sort order used by `videos_for_key.sort(key=lambda x: (x["iter_num"], x["path"]))`:
the Python `≤` on the key tuple. -/
def recLe (a b : VideoRecord) : Bool :=
  if a.iter_num < b.iter_num then true
  else if b.iter_num < a.iter_num then false
  else listLe a.path.data b.path.data

/-- The Aggregator, viewed as the map from a `(task, model)` key to the
group's final member list: collect the key's records in input order,
stable-sort by `(iter_num, path)`, and keep only the first 5 when there
are exactly 6. -/
def group_by_task_model (videos : List VideoRecord) (k : String × String) : List VideoRecord :=
  let s := pySort recLe (videos.filter (fun v => groupKey v == k))
  if s.length = 6 then s.take 5 else s

def dedupFirstAux {α : Type} [DecidableEq α] : List α → List α → List α
  | acc, [] => acc.reverse
  | acc, a :: rest =>
    if a ∈ acc then dedupFirstAux acc rest else dedupFirstAux (a :: acc) rest

/-- Keys of the `defaultdict`, in insertion (first-occurrence) order. -/
def groupedKeys (videos : List VideoRecord) : List (String × String) :=
  dedupFirstAux [] (videos.map groupKey)

/-! ## JSON serialization (`json.dumps` with default options) -/

def hexDigit (n : Nat) : Char :=
  if n < 10 then Char.ofNat (48 + n) else Char.ofNat (87 + n)

def hex4 (n : Nat) : String :=
  ⟨[hexDigit ((n / 4096) % 16), hexDigit ((n / 256) % 16),
    hexDigit ((n / 16) % 16), hexDigit (n % 16)]⟩

/-- Escape one character as `json.dumps` does with `ensure_ascii=True`:
printable ASCII except quote and backslash is literal, the five short
escapes, `\uXXXX` otherwise (surrogate pairs beyond the BMP). -/
def jsonEscChar (c : Char) : String :=
  if c = '"' then "\\\""
  else if c = '\\' then "\\\\"
  else if c = '\n' then "\\n"
  else if c = '\r' then "\\r"
  else if c = '\t' then "\\t"
  else if c.toNat = 8 then "\\b"
  else if c.toNat = 12 then "\\f"
  else if 32 ≤ c.toNat ∧ c.toNat ≤ 126 then ⟨[c]⟩
  else if c.toNat < 65536 then "\\u" ++ hex4 c.toNat
  else
    "\\u" ++ hex4 (55296 + (c.toNat - 65536) / 1024) ++
    "\\u" ++ hex4 (56320 + (c.toNat - 65536) % 1024)

def jsonStr (s : String) : String :=
  "\"" ++ String.join (s.data.map jsonEscChar) ++ "\""

def jsonStrList (l : List String) : String :=
  "[" ++ String.intercalate ", " (l.map jsonStr) ++ "]"

def jsonStrListDict (ps : List (String × List String)) : String :=
  "\x7b" ++
  String.intercalate ", " (ps.map (fun p => jsonStr p.1 ++ ": " ++ jsonStrList p.2)) ++
  "\x7d"

/-! ## The Renderer: `render_html` -/

def sortedDistinct (l : List String) : List String :=
  pySort strLeB (dedupFirstAux [] l)

/-- Python pair comparison used by `sorted(grouped.items(), key=lambda x: (x[0][0], x[0][1]))`. -/
def pairLeB (x y : String × String) : Bool :=
  if listLt x.1.data y.1.data then true
  else if listLt y.1.data x.1.data then false
  else listLe x.2.data y.2.data

def tasksOf (keys : List (String × String)) : List String :=
  sortedDistinct (keys.map Prod.fst)

def modelsFor (keys : List (String × String)) (t : String) : List String :=
  sortedDistinct ((keys.filter (fun k => k.1 == t)).map Prod.snd)

/-- Models of the lexicographically first task (`models_by_task[tasks[0]]`);
`[]` only on the unreachable empty-tasks path, where the real code raises
before using the value. -/
def firstTaskModels (keys : List (String × String)) : List String :=
  match tasksOf keys with
  | [] => []
  | t :: _ => modelsFor keys t

def sortedKeys (keys : List (String × String)) : List (String × String) :=
  pySort pairLeB keys

def headLines : List String :=
  ["<!DOCTYPE html>",
   "<html>",
   "<head>",
   "  <meta charset=\"utf-8\">",
   "  <meta name=\"viewport\" content=\"width=device-width, initial-scale=1\">",
   "  <link rel=\"stylesheet\" href=\"static/css/bulma.min.css\">",
   "</head>",
   "<body>"]

def optionLine (v : String) : String :=
  "            <option value=\"" ++ v ++ "\">" ++ v ++ "</option>"

def controlsLines (tasks firstModels : List String) : List String :=
  ["<div class=\"section\">",
   "  <div class=\"container is-max-desktop\">",
   "    <div class=\"field\">",
   "      <label class=\"label\">Task</label>",
   "      <div class=\"control\">",
   "        <div class=\"select\">",
   "          <select id=\"task-select\" onchange=\"updateTask()\">"]
  ++ tasks.map optionLine
  ++ ["          </select>",
      "        </div>",
      "      </div>",
      "    </div>",
      "    <div class=\"field\">",
      "      <label class=\"label\">Model</label>",
      "      <div class=\"control\">",
      "        <div class=\"select\">",
      "          <select id=\"model-select\" onchange=\"updateModel()\">"]
  ++ firstModels.map optionLine
  ++ ["          </select>",
      "        </div>",
      "      </div>",
      "    </div>",
      "  </div>",
      "</div>"]

def secPre : String := "<section class=\"section video-grid\" id=\""

def secSuf : String := "\" style=\"display:none;\">"

def h2Line (task model : String) : String :=
  "    <h2 class=\"title is-3\">" ++ task ++ " â€” " ++ model ++ "</h2>"

def sourceLine (p : String) : String :=
  "              <source src=\"" ++ p ++ "\" type=\"video/mp4\">"

def capPre : String := "            <p class=\"subtitle is-6\">"

def capSuf : String := "</p>"

def captionText (n : Nat) : String := "Feedback iteration " ++ Nat.repr n

def cardLines (idx : Nat) (v : VideoRecord) : List String :=
  ["      <div class=\"column is-one-third-desktop is-half-mobile\">",
   "        <div class=\"card\">",
   "          <div class=\"card-image\">",
   "            <video autoplay loop muted playsinline preload=\"metadata\" style=\"width:100%; height:auto;\">",
   sourceLine v.path,
   "            </video>",
   "          </div>",
   "          <div class=\"card-content\">",
   capPre ++ captionText idx ++ capSuf,
   "        </div>",
   "      </div>"]

/-- Section identifier: `f"{task}-{model}"`. -/
def idOf (key : String × String) : String := key.1 ++ "-" ++ key.2

def sectionLines (key : String × String) (vids : List VideoRecord) : List String :=
  [secPre ++ idOf key ++ secSuf,
   "  <div class=\"container is-max-desktop\">",
   h2Line key.1 key.2,
   "    <div class=\"columns is-multiline\">"]
  ++ (vids.enum.flatMap (fun iv => cardLines iv.1 iv.2))
  ++ ["    </div>",
      "  </div>",
      "</section>",
      ""]

def scriptTailLines : List String :=
  ["function updateTask() \x7b",
   "  const task = document.getElementById(\"task-select\").value;",
   "  const modelSel = document.getElementById(\"model-select\");",
   "  modelSel.innerHTML = \"\";",
   "  for (const m of modelsByTask[task]) \x7b",
   "    const opt = document.createElement(\"option\");",
   "    opt.value = m; opt.textContent = m;",
   "    modelSel.appendChild(opt);",
   "  \x7d",
   "  updateModel();",
   "\x7d",
   "function updateModel() \x7b",
   "  const task = document.getElementById(\"task-select\").value;",
   "  const model = document.getElementById(\"model-select\").value;",
   "  // hide all sections",
   "  document.querySelectorAll(\".video-grid\").forEach(s => s.style.display = \"none\");",
   "  // show the selected one",
   "  const section = document.getElementById(task + \"-\" + model);",
   "  if (section) section.style.display = \"block\";",
   "\x7d",
   "// initialize",
   "updateTask();",
   "</script>"]

def scriptLines (mbt : List (String × List String)) : List String :=
  ["<script>",
   "const modelsByTask = " ++ jsonStrListDict mbt ++ ";"]
  ++ scriptTailLines

/-- All lines of the rendered document, in order (`out` in `render_html`,
with the final string being their `"\n"`-join). -/
def docLines (keys : List (String × String)) (g : String × String → List VideoRecord) :
    List String :=
  headLines
  ++ controlsLines (tasksOf keys) (firstTaskModels keys)
  ++ (sortedKeys keys).flatMap (fun k => sectionLines k (g k))
  ++ scriptLines ((tasksOf keys).map (fun t => (t, modelsFor keys t)))
  ++ ["</body>", "</html>"]

/-- The Renderer.  `Except.error ()` models the `IndexError` raised by
`models_by_task[tasks[0]]` when the computed task list is empty. -/
def render_html (keys : List (String × String)) (g : String × String → List VideoRecord) :
    Except Unit String :=
  match tasksOf keys with
  | [] => Except.error ()
  | _ :: _ => Except.ok (String.intercalate "\n" (docLines keys g))

/-! ## The driver: `main` -/

structure MainOut where
  stdout : List String
  fileOut : Option (String × String)
deriving DecidableEq

def NO_VIDEOS_COMMENT : String := "<!-- No videos found -->"

/-- The `main` function: locate, short-circuit on empty, group, render,
then write to the `--out` file or to stdout.  `Except.error ()` is an
uncaught exception. -/
def main_run (base : String) (outArg : Option String) (fs : FS) : Except Unit MainOut :=
  let found := find_videos base fs
  match found.2 with
  | Except.error e => Except.error e
  | Except.ok videos =>
    if videos.isEmpty then
      Except.ok ⟨found.1 ++ [NO_VIDEOS_COMMENT], none⟩
    else
      match render_html (groupedKeys videos) (group_by_task_model videos) with
      | Except.error e => Except.error e
      | Except.ok html =>
        match outArg with
        | some f => Except.ok ⟨found.1 ++ ["Wrote HTML to " ++ f], some (f, html)⟩
        | none => Except.ok ⟨found.1 ++ [html], none⟩

/-! ## Extracting marked content from document lines

`extractBetween pre suf` recovers the text between a literal opening
marker and a literal closing marker of a line, and fails on any line not
carrying both.  It is used to read section identifiers and card captions
back out of the rendered document. -/

def extractBetween (pre suf l : String) : Option String :=
  if pre.data.isPrefixOf l.data && suf.data.isSuffixOf l.data &&
      decide (pre.data.length + suf.data.length ≤ l.data.length) then
    some ⟨(l.data.drop pre.data.length).take (l.data.length - pre.data.length - suf.data.length)⟩
  else none

theorem strEqOfDataEq {s t : String} (h : s.data = t.data) : s = t :=
  congrArg String.mk h

theorem extractBetween_hit (pre mid suf : String) :
    extractBetween pre suf (pre ++ mid ++ suf) = some mid := by
  have hdata : (pre ++ mid ++ suf).data = pre.data ++ (mid.data ++ suf.data) := by
    simp [List.append_assoc]
  have h1 : pre.data.isPrefixOf (pre ++ mid ++ suf).data = true := by
    rw [hdata, List.isPrefixOf_iff_prefix]
    exact List.prefix_append _ _
  have h2 : suf.data.isSuffixOf (pre ++ mid ++ suf).data = true := by
    rw [hdata, List.isSuffixOf_iff_suffix, ← List.append_assoc]
    exact List.suffix_append _ _
  have h3 : decide (pre.data.length + suf.data.length ≤ (pre ++ mid ++ suf).data.length) = true := by
    rw [decide_eq_true_eq, hdata]
    simp only [List.length_append]
    omega
  have hmid : ((pre ++ mid ++ suf).data.drop pre.data.length).take
      ((pre ++ mid ++ suf).data.length - pre.data.length - suf.data.length) = mid.data := by
    rw [hdata, List.drop_left]
    apply List.take_left'
    simp only [List.length_append]
    omega
  rw [extractBetween, h1, h2, h3]
  rw [if_pos (show ((true && true) && true) = true from rfl)]
  exact congrArg some (strEqOfDataEq hmid)

theorem extractBetween_none_of_neq (pre suf l lit : String) (rest : List Char)
    (hl : l.data = lit.data ++ rest)
    (h1 : pre.data.isPrefixOf lit.data = false)
    (h2 : lit.data.isPrefixOf pre.data = false) :
    extractBetween pre suf l = none := by
  have hp : pre.data.isPrefixOf l.data = false := by
    rw [hl]
    by_contra hc
    have hc' : pre.data.isPrefixOf (lit.data ++ rest) = true := by
      revert hc; cases pre.data.isPrefixOf (lit.data ++ rest) <;> simp
    have hpre : pre.data <+: lit.data ++ rest := List.isPrefixOf_iff_prefix.mp hc'
    have hlit : lit.data <+: lit.data ++ rest := List.prefix_append _ _
    rcases List.prefix_or_prefix_of_prefix hpre hlit with h | h
    · rw [← List.isPrefixOf_iff_prefix] at h
      rw [h1] at h
      cases h
    · rw [← List.isPrefixOf_iff_prefix] at h
      rw [h2] at h
      cases h
  simp [extractBetween, hp]

theorem filterMap_flatMap {α β γ : Type} (l : List α) (g : α → List β) (f : β → Option γ) :
    (l.flatMap g).filterMap f = l.flatMap (fun x => (g x).filterMap f) := by
  induction l with
  | nil => rfl
  | cons a t ih => simp [List.flatMap_cons, List.filterMap_append, ih]

/-! ## Facts about `findModelIdx` and path parsing -/

theorem findModelIdx_lt_length :
    ∀ (parts : List String) (i : Nat), findModelIdx parts = some i → i < parts.length
  | [], i, h => by simp [findModelIdx] at h
  | s :: rest, i, h => by
    simp only [findModelIdx] at h
    split at h
    · cases h; simp
    · cases hr : findModelIdx rest with
      | none => rw [hr] at h; simp at h
      | some j =>
        rw [hr] at h
        simp at h
        have := findModelIdx_lt_length rest j hr
        simp [← h]
        omega

theorem findModelIdx_found :
    ∀ (parts : List String) (i : Nat), findModelIdx parts = some i →
      hasSubstr (parts.getD i "") "gpt-5" = true
  | [], i, h => by simp [findModelIdx] at h
  | s :: rest, i, h => by
    simp only [findModelIdx] at h
    split at h
    · rename_i hs
      cases h
      simpa using hs
    · cases hr : findModelIdx rest with
      | none => rw [hr] at h; simp at h
      | some j =>
        rw [hr] at h
        simp at h
        have := findModelIdx_found rest j hr
        rw [← h]
        simpa using this

theorem getD_last_of_getLast? :
    ∀ (l : List String) (v : String), l.getLast? = some v → l.getD (l.length - 1) "" = v
  | [], _, h => by simp at h
  | [a], v, h => by
    simp at h
    simp [h]
  | a :: b :: t, v, h => by
    rw [List.getLast?_cons_cons] at h
    have ih := getD_last_of_getLast? (b :: t) v h
    simpa using ih

/-! ## Facts about digit runs -/

theorem takeWhile_append_all {α : Type} (p : α → Bool) :
    ∀ (xs ys : List α), (∀ x ∈ xs, p x = true) →
      (∀ c, ys.head? = some c → p c = false) →
      (xs ++ ys).takeWhile p = xs
  | [], ys, _, hy => by
    cases ys with
    | nil => rfl
    | cons y t => simp [List.takeWhile_cons, hy y rfl]
  | x :: xs, ys, hx, hy => by
    have hpx : p x = true := hx x (List.mem_cons_self x xs)
    simp only [List.cons_append, List.takeWhile_cons, hpx, if_true]
    rw [takeWhile_append_all p xs ys (fun a ha => hx a (List.mem_cons_of_mem _ ha)) hy]

theorem firstDigitRun_none : ∀ (l : List Char),
    (∀ c ∈ l, pyDigit c = false) → firstDigitRun l = none
  | [], _ => rfl
  | c :: cs, h => by
    simp only [firstDigitRun, h c (List.mem_cons_self c cs)]
    simp only [Bool.false_eq_true, if_false]
    exact firstDigitRun_none cs (fun x hx => h x (List.mem_cons_of_mem _ hx))

theorem firstDigitRun_split : ∀ (a r b : List Char),
    (∀ c ∈ a, pyDigit c = false) → r ≠ [] → (∀ c ∈ r, pyDigit c = true) →
    (∀ c, b.head? = some c → pyDigit c = false) →
    firstDigitRun (a ++ r ++ b) = some r
  | [], r, b, _, hr, hrd, hb => by
    cases r with
    | nil => exact absurd rfl hr
    | cons c r' =>
      have hc : pyDigit c = true := hrd c (List.mem_cons_self c r')
      simp only [List.nil_append, List.cons_append, firstDigitRun, hc, if_true, List.append_eq]
      rw [takeWhile_append_all pyDigit r' b (fun x hx => hrd x (List.mem_cons_of_mem _ hx)) hb]
  | x :: a, r, b, ha, hr, hrd, hb => by
    have hx : pyDigit x = false := ha x (List.mem_cons_self x a)
    simp only [List.cons_append, firstDigitRun, hx, Bool.false_eq_true, if_false]
    have := firstDigitRun_split a r b (fun c hc => ha c (List.mem_cons_of_mem _ hc)) hr hrd hb
    simpa using this

/-! ## Facts about the group sort order -/

theorem recLe_total : ∀ a b : VideoRecord, (recLe a b || recLe b a) = true := by
  intro a b
  unfold recLe
  by_cases h1 : a.iter_num < b.iter_num
  · simp [h1]
  · by_cases h2 : b.iter_num < a.iter_num
    · simp [h1, h2]
    · simp only [h1, h2, if_false]
      simpa using listLe_total a.path.data b.path.data

theorem recLe_trans : ∀ a b c : VideoRecord,
    recLe a b = true → recLe b c = true → recLe a c = true := by
  intro a b c hab hbc
  unfold recLe at hab hbc ⊢
  by_cases h1 : a.iter_num < b.iter_num <;>
    by_cases h2 : b.iter_num < a.iter_num <;>
    by_cases h3 : b.iter_num < c.iter_num <;>
    by_cases h4 : c.iter_num < b.iter_num <;>
    simp only [h1, h2, h3, h4, if_true, if_false] at hab hbc ⊢ <;>
    first
      | omega
      | exact (Bool.false_ne_true hab).elim
      | exact (Bool.false_ne_true hbc).elim
      | (simp [show a.iter_num < c.iter_num by omega])
      | (have e1 : ¬ a.iter_num < c.iter_num := by omega
         have e2 : ¬ c.iter_num < a.iter_num := by omega
         simp only [e1, e2, if_false]
         exact listLe_trans _ _ _ hab hbc)

theorem recLe_key_antisymm {a b : VideoRecord}
    (h1 : recLe a b = true) (h2 : recLe b a = true) :
    a.iter_num = b.iter_num ∧ a.path = b.path := by
  unfold recLe at h1 h2
  by_cases g1 : a.iter_num < b.iter_num
  · have g2 : ¬ b.iter_num < a.iter_num := by omega
    simp [g1, g2] at h2
  · by_cases g2 : b.iter_num < a.iter_num
    · simp [g1, g2] at h1
    · simp only [g1, g2, if_false] at h1 h2
      exact ⟨by omega, strEqOfDataEq (listLe_antisymm _ _ h1 h2)⟩

theorem sorted_perm_eq : ∀ (s1 s2 : List VideoRecord),
    s1.Perm s2 →
    s1.Pairwise (recLe · · = true) → s2.Pairwise (recLe · · = true) →
    (∀ a ∈ s1, ∀ b ∈ s1, a.iter_num = b.iter_num → a.path = b.path → a = b) →
    s1 = s2
  | [], s2, hp, _, _, _ => hp.nil_eq
  | a :: t1, [], hp, _, _, _ => by simpa using hp.eq_nil
  | a :: t1, b :: t2, hp, hs1, hs2, hinj => by
    rcases List.pairwise_cons.mp hs1 with ⟨ha1, ht1⟩
    rcases List.pairwise_cons.mp hs2 with ⟨hb2, ht2⟩
    have hab : a = b := by
      have haIn : a ∈ b :: t2 := hp.mem_iff.mp (List.mem_cons_self a t1)
      have hbIn : b ∈ a :: t1 := hp.symm.mem_iff.mp (List.mem_cons_self b t2)
      rcases List.mem_cons.mp haIn with h | haT2
      · exact h
      rcases List.mem_cons.mp hbIn with h | hbT1
      · exact h.symm
      rcases recLe_key_antisymm (ha1 b hbT1) (hb2 a haT2) with ⟨hk1, hk2⟩
      exact hinj a (List.mem_cons_self a t1) b (List.mem_cons_of_mem _ hbT1) hk1 hk2
    subst hab
    have hp' : t1.Perm t2 := hp.cons_inv
    rw [sorted_perm_eq t1 t2 hp' ht1 ht2
      (fun x hx y hy => hinj x (List.mem_cons_of_mem _ hx) y (List.mem_cons_of_mem _ hy))]

theorem pySort_eq_of_perm (l1 l2 : List VideoRecord) (hp : l1.Perm l2)
    (hinj : ∀ a ∈ l1, ∀ b ∈ l1, a.iter_num = b.iter_num → a.path = b.path → a = b) :
    pySort recLe l1 = pySort recLe l2 := by
  apply sorted_perm_eq
  · exact (pySort_perm recLe l1).trans (hp.trans (pySort_perm recLe l2).symm)
  · exact pySort_pairwise recLe recLe_total recLe_trans l1
  · exact pySort_pairwise recLe recLe_total recLe_trans l2
  · intro a ha b hb
    exact hinj a ((pySort_perm recLe l1).mem_iff.mp ha) b ((pySort_perm recLe l1).mem_iff.mp hb)

/-! ## Facts about the driver -/

theorem parseAll_ok (d : String) : ∀ (ps : List (List String)),
    (∀ p ∈ ps, parseVideo d p ≠ Except.error ()) →
    ∃ vs, parseAll d ps = Except.ok vs
  | [], _ => ⟨[], rfl⟩
  | p :: ps, h => by
    have h1 : parseVideo d p ≠ Except.error () := h p (List.mem_cons_self p ps)
    rcases hv : parseVideo d p with e | r
    · cases e
      exact absurd hv h1
    · rcases parseAll_ok d ps (fun q hq => h q (List.mem_cons_of_mem _ hq)) with ⟨vs, hvs⟩
      refine ⟨(match r with | none => vs | some v => v :: vs), ?_⟩
      simp only [parseAll, hv, hvs, bind, Except.bind]
      cases r <;> rfl

theorem main_run_noVideos (base : String) (outArg : Option String) (fs : FS)
    (h : (find_videos base fs).2 = Except.ok []) :
    main_run base outArg fs = Except.ok ⟨(find_videos base fs).1 ++ [NO_VIDEOS_COMMENT], none⟩ := by
  simp only [main_run, h]
  rfl

theorem find_videos_msgs_length (base : String) (fs : FS) :
    (find_videos base fs).1.length = 1 := by
  unfold find_videos
  split <;> rfl

/-! ## Reading section identifiers and captions out of the document -/

theorem flatMap_singleton_map {α β : Type} (f : α → β) (l : List α) :
    (l.flatMap (fun x => [f x])) = l.map f := by
  induction l with
  | nil => rfl
  | cons a t ih => simp [List.flatMap_cons, ih]

theorem flatMap_const_nil {α β : Type} (l : List α) :
    (l.flatMap (fun _ => ([] : List β))) = [] := by
  induction l with
  | nil => rfl
  | cons a t ih => simp [List.flatMap_cons, ih]

theorem secExtract_optionLine (v : String) :
    extractBetween secPre secSuf (optionLine v) = none := by
  apply extractBetween_none_of_neq secPre secSuf _ "            <option value=\""
      (v.data ++ ("\">" ++ v ++ "</option>").data)
  · simp [optionLine, List.append_assoc]
  · decide
  · decide

theorem secExtract_h2Line (t m : String) :
    extractBetween secPre secSuf (h2Line t m) = none := by
  apply extractBetween_none_of_neq secPre secSuf _ "    <h2 class=\"title is-3\">"
      (t.data ++ (" â€” " ++ m ++ "</h2>").data)
  · simp [h2Line, List.append_assoc]
  · decide
  · decide

theorem secExtract_sourceLine (p : String) :
    extractBetween secPre secSuf (sourceLine p) = none := by
  apply extractBetween_none_of_neq secPre secSuf _ "              <source src=\""
      (p.data ++ ("\" type=\"video/mp4\">").data)
  · simp [sourceLine, List.append_assoc]
  · decide
  · decide

theorem secExtract_capLine (i : Nat) :
    extractBetween secPre secSuf (capPre ++ captionText i ++ capSuf) = none := by
  apply extractBetween_none_of_neq secPre secSuf _ capPre ((captionText i).data ++ capSuf.data)
  · simp [List.append_assoc]
  · decide
  · decide

theorem secExtract_jsonLine (mbt : List (String × List String)) :
    extractBetween secPre secSuf ("const modelsByTask = " ++ jsonStrListDict mbt ++ ";") = none := by
  apply extractBetween_none_of_neq secPre secSuf _ "const modelsByTask = "
      ((jsonStrListDict mbt).data ++ ";".data)
  · simp [List.append_assoc]
  · decide
  · decide

theorem secIds_cardLines (i : Nat) (v : VideoRecord) :
    (cardLines i v).filterMap (extractBetween secPre secSuf) = [] := by
  apply List.filterMap_eq_nil_iff.mpr
  intro l hl
  simp only [cardLines, List.mem_cons, List.not_mem_nil, or_false] at hl
  rcases hl with rfl | rfl | rfl | rfl | rfl | rfl | rfl | rfl | rfl | rfl | rfl
  · decide
  · decide
  · decide
  · decide
  · exact secExtract_sourceLine v.path
  · decide
  · decide
  · decide
  · exact secExtract_capLine i
  · decide
  · decide

theorem secIds_sectionLines (k : String × String) (vids : List VideoRecord) :
    (sectionLines k vids).filterMap (extractBetween secPre secSuf) = [idOf k] := by
  have hc1 : extractBetween secPre secSuf "  <div class=\"container is-max-desktop\">" = none := by
    decide
  have hc2 : extractBetween secPre secSuf "    <div class=\"columns is-multiline\">" = none := by
    decide
  have hc3 : extractBetween secPre secSuf "    </div>" = none := by decide
  have hc4 : extractBetween secPre secSuf "  </div>" = none := by decide
  have hc5 : extractBetween secPre secSuf "</section>" = none := by decide
  have hc6 : extractBetween secPre secSuf "" = none := by decide
  simp only [sectionLines, List.filterMap_append, List.filterMap_cons, List.filterMap_nil,
    extractBetween_hit secPre (idOf k) secSuf, secExtract_h2Line,
    hc1, hc2, hc3, hc4, hc5, hc6]
  rw [filterMap_flatMap]
  simp only [secIds_cardLines, flatMap_const_nil]
  simp

theorem secIds_controls (ts fm : List String) :
    (controlsLines ts fm).filterMap (extractBetween secPre secSuf) = [] := by
  have hopt : ∀ l : List String,
      (l.map optionLine).filterMap (extractBetween secPre secSuf) = [] := by
    intro l
    rw [List.filterMap_map]
    exact List.filterMap_eq_nil_iff.mpr (fun a _ => secExtract_optionLine a)
  simp only [controlsLines, List.filterMap_append, hopt]
  rw [show List.filterMap (extractBetween secPre secSuf)
      ["<div class=\"section\">",
       "  <div class=\"container is-max-desktop\">",
       "    <div class=\"field\">",
       "      <label class=\"label\">Task</label>",
       "      <div class=\"control\">",
       "        <div class=\"select\">",
       "          <select id=\"task-select\" onchange=\"updateTask()\">"] = [] from by decide]
  rw [show List.filterMap (extractBetween secPre secSuf)
      ["          </select>",
       "        </div>",
       "      </div>",
       "    </div>",
       "    <div class=\"field\">",
       "      <label class=\"label\">Model</label>",
       "      <div class=\"control\">",
       "        <div class=\"select\">",
       "          <select id=\"model-select\" onchange=\"updateModel()\">"] = [] from by decide]
  rw [show List.filterMap (extractBetween secPre secSuf)
      ["          </select>",
       "        </div>",
       "      </div>",
       "    </div>",
       "  </div>",
       "</div>"] = [] from by decide]
  simp

theorem secIds_script (mbt : List (String × List String)) :
    (scriptLines mbt).filterMap (extractBetween secPre secSuf) = [] := by
  simp only [scriptLines, List.filterMap_append, List.filterMap_cons, List.filterMap_nil,
    secExtract_jsonLine]
  rw [show extractBetween secPre secSuf "<script>" = none from by decide]
  rw [show scriptTailLines.filterMap (extractBetween secPre secSuf) = [] from by decide]
  simp

/-- Identifiers of the hidden section elements of the rendered document, in
document order. -/
def docIds (keys : List (String × String)) (g : String × String → List VideoRecord) :
    List String :=
  (docLines keys g).filterMap (extractBetween secPre secSuf)

theorem docIds_eq (keys : List (String × String)) (g : String × String → List VideoRecord) :
    docIds keys g = (sortedKeys keys).map idOf := by
  unfold docIds docLines
  simp only [List.filterMap_append, secIds_controls, secIds_script]
  rw [show headLines.filterMap (extractBetween secPre secSuf) = [] from by decide]
  rw [show List.filterMap (extractBetween secPre secSuf) ["</body>", "</html>"] = [] from by decide]
  rw [filterMap_flatMap]
  simp only [secIds_sectionLines]
  rw [flatMap_singleton_map]
  simp

theorem capExtract_secOpen (k : String × String) :
    extractBetween capPre capSuf (secPre ++ idOf k ++ secSuf) = none := by
  apply extractBetween_none_of_neq capPre capSuf _ secPre ((idOf k).data ++ secSuf.data)
  · simp [List.append_assoc]
  · decide
  · decide

theorem capExtract_h2Line (t m : String) :
    extractBetween capPre capSuf (h2Line t m) = none := by
  apply extractBetween_none_of_neq capPre capSuf _ "    <h2 class=\"title is-3\">"
      (t.data ++ (" â€” " ++ m ++ "</h2>").data)
  · simp [h2Line, List.append_assoc]
  · decide
  · decide

theorem capExtract_sourceLine (p : String) :
    extractBetween capPre capSuf (sourceLine p) = none := by
  apply extractBetween_none_of_neq capPre capSuf _ "              <source src=\""
      (p.data ++ ("\" type=\"video/mp4\">").data)
  · simp [sourceLine, List.append_assoc]
  · decide
  · decide

theorem captions_cardLines (i : Nat) (v : VideoRecord) :
    (cardLines i v).filterMap (extractBetween capPre capSuf) = [captionText i] := by
  simp only [cardLines, List.filterMap_cons, List.filterMap_nil,
    extractBetween_hit capPre (captionText i) capSuf,
    capExtract_sourceLine]
  rw [show extractBetween capPre capSuf
      "      <div class=\"column is-one-third-desktop is-half-mobile\">" = none from by decide]
  rw [show extractBetween capPre capSuf "        <div class=\"card\">" = none from by decide]
  rw [show extractBetween capPre capSuf "          <div class=\"card-image\">" = none from by decide]
  rw [show extractBetween capPre capSuf
      "            <video autoplay loop muted playsinline preload=\"metadata\" style=\"width:100%; height:auto;\">"
      = none from by decide]
  rw [show extractBetween capPre capSuf "            </video>" = none from by decide]
  rw [show extractBetween capPre capSuf "          </div>" = none from by decide]
  rw [show extractBetween capPre capSuf "          <div class=\"card-content\">" = none from by decide]
  rw [show extractBetween capPre capSuf "        </div>" = none from by decide]
  rw [show extractBetween capPre capSuf "      </div>" = none from by decide]

theorem captions_enumFrom (n : Nat) (vids : List VideoRecord) :
    ((vids.enumFrom n).flatMap (fun iv => cardLines iv.1 iv.2)).filterMap
        (extractBetween capPre capSuf) =
      (List.range' n vids.length).map captionText := by
  induction vids generalizing n with
  | nil => rfl
  | cons v t ih =>
    simp only [List.enumFrom_cons, List.flatMap_cons, List.filterMap_append,
      captions_cardLines, ih, List.length_cons, List.range']
    simp

/-! ## Characterizing `parseVideo` -/

theorem parseVideo_short (d : String) (parts : List String) (h : parts.length < 6) :
    parseVideo d parts = Except.ok none := by
  unfold parseVideo
  rw [if_pos h]

theorem parseVideo_noModel (d : String) (parts : List String)
    (h : findModelIdx parts = none) : parseVideo d parts = Except.ok none := by
  by_cases h6 : parts.length < 6
  · exact parseVideo_short d parts h6
  · unfold parseVideo
    rw [if_neg h6, h]

theorem parseVideo_ok_record (d : String) (parts : List String) (i : Nat)
    (h6 : ¬ parts.length < 6) (hidx : findModelIdx parts = some i)
    (hlt : i + 1 < parts.length) :
    parseVideo d parts = Except.ok (some
      { path := "static/videos/highlight-videos/" ++ joinParts parts
        abs_path := d ++ "/" ++ joinParts parts
        scene := parts.getD 1 ""
        task := parts.getD (if i = 0 then parts.length - 1 else i - 1) ""
        model := parts.getD i ""
        run_id := parts.getD (i + 1) ""
        iter_name := parts.getD (i + 1) ""
        iter_num := iterNumOf (parts.getD (i + 1) "") }) := by
  unfold parseVideo
  rw [if_neg h6, hidx]
  simp only [if_pos hlt]

theorem findModelIdx_succ_lt (parts : List String) (i : Nat)
    (hlast : parts.getLast? = some VIDEO_NAME)
    (hidx : findModelIdx parts = some i) : i + 1 < parts.length := by
  have hi : i < parts.length := findModelIdx_lt_length parts i hidx
  by_contra hc
  have hieq : i = parts.length - 1 := by omega
  have hfound := findModelIdx_found parts i hidx
  rw [hieq, getD_last_of_getLast? parts VIDEO_NAME hlast] at hfound
  have : hasSubstr VIDEO_NAME "gpt-5" = false := by decide
  rw [this] at hfound
  cases hfound

theorem parseVideo_not_error (d : String) (parts : List String)
    (hlast : parts.getLast? = some VIDEO_NAME) :
    parseVideo d parts ≠ Except.error () := by
  by_cases h6 : parts.length < 6
  · rw [parseVideo_short d parts h6]
    intro hc
    cases hc
  · cases hidx : findModelIdx parts with
    | none =>
      rw [parseVideo_noModel d parts hidx]
      intro hc
      cases hc
    | some i =>
      rw [parseVideo_ok_record d parts i h6 hidx (findModelIdx_succ_lt parts i hlast hidx)]
      intro hc
      cases hc

/-- C1: for every file path found by the Locator (relative segment list
ending in `sim.mp4`) with at least 6 segments and a first `gpt-5` segment
at index `i ≥ 1`, the produced record has `scene = segments[1]`,
`task = segments[i-1]`, `model = segments[i]`, `run_id = segments[i+1]`;
paths with fewer than 6 segments or without a `gpt-5` segment are
excluded (skipped). -/
theorem claim1_locator_extraction :
    ∀ (videosDir : String) (parts : List String),
      (parts.length < 6 → parseVideo videosDir parts = Except.ok none) ∧
      (findModelIdx parts = none → parseVideo videosDir parts = Except.ok none) ∧
      (∀ i : Nat, findModelIdx parts = some i → 1 ≤ i → 6 ≤ parts.length →
        parts.getLast? = some VIDEO_NAME →
        ∃ r, parseVideo videosDir parts = Except.ok (some r) ∧
          r.scene = parts.getD 1 "" ∧ r.task = parts.getD (i - 1) "" ∧
          r.model = parts.getD i "" ∧ r.run_id = parts.getD (i + 1) "") := by
  intro d parts
  refine ⟨parseVideo_short d parts, parseVideo_noModel d parts, ?_⟩
  intro i hidx hi h6 hlast
  have h6' : ¬ parts.length < 6 := by omega
  have hlt := findModelIdx_succ_lt parts i hlast hidx
  refine ⟨_, parseVideo_ok_record d parts i h6' hidx hlt, rfl, ?_, rfl, rfl⟩
  have : (if i = 0 then parts.length - 1 else i - 1) = i - 1 := by
    rw [if_neg (by omega)]
  rw [this]

/-- Witness for C1 at a concrete six-segment path with the model marker at
index 3. -/
theorem claim1_witness :
    parseVideo "/r" ["a", "sim.mp4"] = Except.ok none ∧
    parseVideo "/r" ["a", "b", "c", "d", "e", "sim.mp4"] = Except.ok none ∧
    ∃ r, parseVideo "/r" ["scenes", "blocks", "Make-a-task", "gpt-5-2025", "run_03", "sim.mp4"] =
        Except.ok (some r) ∧
      r.scene = "blocks" ∧ r.task = "Make-a-task" ∧
      r.model = "gpt-5-2025" ∧ r.run_id = "run_03" :=
  ⟨(claim1_locator_extraction "/r" ["a", "sim.mp4"]).1 (by decide),
   (claim1_locator_extraction "/r" ["a", "b", "c", "d", "e", "sim.mp4"]).2.1 (by decide),
   (claim1_locator_extraction "/r"
     ["scenes", "blocks", "Make-a-task", "gpt-5-2025", "run_03", "sim.mp4"]).2.2 3
     (by decide) (by decide) (by decide) (by decide)⟩

/-- C9: the filename segment `sim.mp4` never contains `gpt-5`, so on every
path found by `rglob` (whose last segment is `sim.mp4`) the first `gpt-5`
index `i` satisfies `i + 1 <` the segment count, the per-file parse never
raises the modelled `IndexError`, and `find_videos` returns a result for
every such filesystem. -/
theorem claim9_run_id_in_bounds :
    hasSubstr VIDEO_NAME "gpt-5" = false ∧
    (∀ (parts : List String) (i : Nat), parts.getLast? = some VIDEO_NAME →
      findModelIdx parts = some i → i + 1 < parts.length) ∧
    (∀ (videosDir : String) (parts : List String), parts.getLast? = some VIDEO_NAME →
      parseVideo videosDir parts ≠ Except.error ()) ∧
    (∀ (base : String) (fs : FS), (∀ p ∈ fs.foundParts, p.getLast? = some VIDEO_NAME) →
      ∃ vs, (find_videos base fs).2 = Except.ok vs) := by
  refine ⟨by decide, ?_, ?_, ?_⟩
  · intro parts i hlast hidx
    exact findModelIdx_succ_lt parts i hlast hidx
  · intro d parts hlast
    exact parseVideo_not_error d parts hlast
  · intro base fs hall
    unfold find_videos
    split
    · exact ⟨[], rfl⟩
    · exact parseAll_ok (videosDirStr base) fs.foundParts
        (fun p hp => parseVideo_not_error (videosDirStr base) p (hall p hp))

/-- Witness for C9 at a concrete path whose model marker is the next-to-last
segment. -/
theorem claim9_witness :
    (∀ i : Nat, findModelIdx ["sc", "bl", "t", "u", "gpt-5-x", "sim.mp4"] = some i →
      i + 1 < 6) ∧
    parseVideo "/r" ["sc", "bl", "t", "u", "gpt-5-x", "sim.mp4"] ≠ Except.error () ∧
    ∃ vs, (find_videos "/b" ⟨true, [["sc", "bl", "t", "u", "gpt-5-x", "sim.mp4"]]⟩).2 =
      Except.ok vs :=
  ⟨fun i h => claim9_run_id_in_bounds.2.1 _ i (by decide) h,
   claim9_run_id_in_bounds.2.2.1 "/r" _ (by decide),
   claim9_run_id_in_bounds.2.2.2 "/b" ⟨true, [["sc", "bl", "t", "u", "gpt-5-x", "sim.mp4"]]⟩
     (by intro p hp; simp at hp; rw [hp]; decide)⟩

/-- C10: when the first `gpt-5` segment is at index 0, the file is not
skipped; Python's `parts[-1]` wraparound makes `task` the last segment
(the filename `sim.mp4`) while `scene` is still `segments[1]`. -/
theorem claim10_zero_index_wraparound :
    ∀ (videosDir : String) (parts : List String),
      6 ≤ parts.length → parts.getLast? = some VIDEO_NAME →
      findModelIdx parts = some 0 →
      ∃ r, parseVideo videosDir parts = Except.ok (some r) ∧
        r.task = VIDEO_NAME ∧ r.scene = parts.getD 1 "" ∧ r.model = parts.getD 0 "" := by
  intro d parts h6 hlast hidx
  have h6' : ¬ parts.length < 6 := by omega
  have hlt := findModelIdx_succ_lt parts 0 hlast hidx
  refine ⟨_, parseVideo_ok_record d parts 0 h6' hidx hlt, ?_, rfl, rfl⟩
  show parts.getD (if 0 = 0 then parts.length - 1 else 0 - 1) "" = VIDEO_NAME
  rw [if_pos rfl]
  exact getD_last_of_getLast? parts VIDEO_NAME hlast

/-- Witness for C10 at a concrete path whose first segment contains
`gpt-5`. -/
theorem claim10_witness :
    ∃ r, parseVideo "/r" ["gpt-5a", "b", "c", "d", "e", "sim.mp4"] = Except.ok (some r) ∧
      r.task = VIDEO_NAME ∧ r.scene = "b" ∧ r.model = "gpt-5a" :=
  claim10_zero_index_wraparound "/r" ["gpt-5a", "b", "c", "d", "e", "sim.mp4"]
    (by decide) (by decide) (by decide)

/-- C3 counterexample: `run_id = "run_٣"` (U+0663, ARABIC-INDIC DIGIT
THREE) contains no ASCII digit, so the claim requires `iter_number = 0`,
but Python's `\d` matches the Unicode digit and the code yields 3. -/
theorem claim3_counterexample :
    (∀ c ∈ ("run_٣" : String).data, ¬ ('0' ≤ c ∧ c ≤ '9')) ∧
    iterNumOf "run_٣" = 3 ∧ iterNumOf "run_٣" ≠ 0 := by
  refine ⟨by decide, by decide, by decide⟩

/-- C3 amended: with "digit" meaning Unicode decimal digit (category Nd,
what Python's `\d` matches), `iter_number` is the value of the first
maximal contiguous digit run, and 0 when the string has no digit. -/
theorem claim3_digit_run :
    ∀ s : String,
      (∀ (a r b : List Char), s.data = a ++ r ++ b →
        (∀ c ∈ a, pyDigit c = false) → r ≠ [] → (∀ c ∈ r, pyDigit c = true) →
        (∀ c, b.head? = some c → pyDigit c = false) →
        iterNumOf s = pyInt r) ∧
      ((∀ c ∈ s.data, pyDigit c = false) → iterNumOf s = 0) := by
  intro s
  constructor
  · intro a r b hdecomp ha hr hrd hb
    unfold iterNumOf
    rw [hdecomp, firstDigitRun_split a r b ha hr hrd hb]
  · intro h
    unfold iterNumOf
    rw [firstDigitRun_none s.data h]

/-- Witness for C3 (amended) on `"run_03x"`: the first maximal digit run is
`03`, of value 3, and `"abc"` has no digit. -/
theorem claim3_witness :
    iterNumOf "run_03x" = pyInt ['0', '3'] ∧ iterNumOf "abc" = 0 :=
  ⟨(claim3_digit_run "run_03x").1 ['r', 'u', 'n', '_'] ['0', '3'] ['x']
      (by decide) (by decide) (by decide) (by decide) (by decide),
   (claim3_digit_run "abc").2 (by decide)⟩

/-- C2: a group with exactly 6 members after sorting is truncated to its
first 5 sorted members; any other size is kept unchanged (sorted). -/
theorem claim2_six_to_five :
    ∀ (videos : List VideoRecord) (k : String × String),
      ((pySort recLe (videos.filter (fun v => groupKey v == k))).length = 6 →
        group_by_task_model videos k =
          (pySort recLe (videos.filter (fun v => groupKey v == k))).take 5 ∧
        (group_by_task_model videos k).length = 5) ∧
      ((pySort recLe (videos.filter (fun v => groupKey v == k))).length ≠ 6 →
        group_by_task_model videos k =
          pySort recLe (videos.filter (fun v => groupKey v == k))) := by
  intro videos k
  unfold group_by_task_model
  constructor
  · intro h
    rw [if_pos h]
    refine ⟨rfl, ?_⟩
    rw [List.length_take, h]
    rfl
  · intro h
    rw [if_neg h]

def wrec (p : String) (n : Nat) : VideoRecord :=
  { path := p, abs_path := p, scene := "s", task := "t", model := "gpt-5",
    run_id := "r" ++ Nat.repr n, iter_name := "r" ++ Nat.repr n, iter_num := n }

def w6 : List VideoRecord :=
  [wrec "p0" 0, wrec "p1" 1, wrec "p2" 2, wrec "p3" 3, wrec "p4" 4, wrec "p5" 5]

/-- Witness for C2 on a concrete six-member group. -/
theorem claim2_witness :
    group_by_task_model w6 ("t", "gpt-5") =
      (pySort recLe (w6.filter (fun v => groupKey v == ("t", "gpt-5")))).take 5 ∧
    (group_by_task_model w6 ("t", "gpt-5")).length = 5 :=
  (claim2_six_to_five w6 ("t", "gpt-5")).1 (by decide)

/-! ## Claims about the Aggregator's order behavior -/

theorem recLe_cases {a b : VideoRecord} (h : recLe a b = true) :
    a.iter_num < b.iter_num ∨
      (a.iter_num = b.iter_num ∧ listLe a.path.data b.path.data = true) := by
  unfold recLe at h
  by_cases h1 : a.iter_num < b.iter_num
  · exact Or.inl h1
  · by_cases h2 : b.iter_num < a.iter_num
    · simp [h1, h2] at h
    · simp only [h1, h2, if_false] at h
      exact Or.inr ⟨by omega, h⟩

def cr1 : VideoRecord :=
  { path := "p", abs_path := "a1", scene := "s1", task := "t", model := "gpt-5",
    run_id := "r", iter_name := "r", iter_num := 0 }

def cr2 : VideoRecord :=
  { path := "p", abs_path := "a2", scene := "s2", task := "t", model := "gpt-5",
    run_id := "r", iter_name := "r", iter_num := 0 }

/-- C7 counterexample: two distinct records sharing the sort key
`(iter_num, path)` (they differ in `scene`/`abs_path`).  The stable sort
keeps them in input order, so permuting the input permutes the group. -/
theorem claim7_counterexample :
    List.Perm [cr1, cr2] [cr2, cr1] ∧
    group_by_task_model [cr1, cr2] ("t", "gpt-5") ≠
      group_by_task_model [cr2, cr1] ("t", "gpt-5") :=
  ⟨List.Perm.swap cr2 cr1 [], by decide⟩

/-- C7 amended: the Aggregator is order-independent on inputs in which the
sort key `(iter_num, web_path)` determines the record, and each group is
sorted ascending by `(iter_num, web_path)` with ties in `iter_num`
ordered by `web_path`. -/
theorem claim7_order_invariance :
    (∀ (v1 v2 : List VideoRecord) (k : String × String),
      v1.Perm v2 →
      (∀ a ∈ v1, ∀ b ∈ v1, a.iter_num = b.iter_num → a.path = b.path → a = b) →
      group_by_task_model v1 k = group_by_task_model v2 k) ∧
    (∀ (videos : List VideoRecord) (k : String × String),
      (group_by_task_model videos k).Pairwise
        (fun a b => a.iter_num < b.iter_num ∨
          (a.iter_num = b.iter_num ∧ listLe a.path.data b.path.data = true))) := by
  constructor
  · intro v1 v2 k hperm hinj
    have hfp : (v1.filter (fun v => groupKey v == k)).Perm
        (v2.filter (fun v => groupKey v == k)) := hperm.filter _
    have hs : pySort recLe (v1.filter (fun v => groupKey v == k)) =
        pySort recLe (v2.filter (fun v => groupKey v == k)) := by
      apply pySort_eq_of_perm _ _ hfp
      intro a ha b hb
      exact hinj a (List.mem_of_mem_filter ha) b (List.mem_of_mem_filter hb)
    unfold group_by_task_model
    rw [hs]
  · intro videos k
    have hs : (pySort recLe (videos.filter (fun v => groupKey v == k))).Pairwise
        (recLe · · = true) :=
      pySort_pairwise recLe recLe_total recLe_trans _
    simp only [group_by_task_model]
    split
    · exact (List.Pairwise.sublist (List.take_sublist 5 _) hs).imp (fun h => recLe_cases h)
    · exact hs.imp (fun h => recLe_cases h)

/-- Witness for C7 on two concrete permuted inputs with distinct keys. -/
theorem claim7_witness :
    group_by_task_model [wrec "pb" 1, wrec "pa" 0] ("t", "gpt-5") =
      group_by_task_model [wrec "pa" 0, wrec "pb" 1] ("t", "gpt-5") :=
  claim7_order_invariance.1 [wrec "pb" 1, wrec "pa" 0] [wrec "pa" 0, wrec "pb" 1]
    ("t", "gpt-5") (List.Perm.swap (wrec "pa" 0) (wrec "pb" 1) []) (by decide)

/-! ## Claims about the Renderer -/

/-- C8: the caption of the card at 0-based position `N` of a rendered group
is `"Feedback iteration N"`, independent of the records' `iter_num`. -/
theorem claim8_captions :
    ∀ (k : String × String) (vids : List VideoRecord),
      (sectionLines k vids).filterMap (extractBetween capPre capSuf) =
        (List.range vids.length).map captionText := by
  intro k vids
  have hc1 : extractBetween capPre capSuf "  <div class=\"container is-max-desktop\">" = none := by
    decide
  have hc2 : extractBetween capPre capSuf "    <div class=\"columns is-multiline\">" = none := by
    decide
  have hc3 : extractBetween capPre capSuf "    </div>" = none := by decide
  have hc4 : extractBetween capPre capSuf "  </div>" = none := by decide
  have hc5 : extractBetween capPre capSuf "</section>" = none := by decide
  have hc6 : extractBetween capPre capSuf "" = none := by decide
  simp only [sectionLines, List.filterMap_append, List.filterMap_cons, List.filterMap_nil,
    capExtract_secOpen, capExtract_h2Line, hc1, hc2, hc3, hc4, hc5, hc6]
  rw [show vids.enum = vids.enumFrom 0 from rfl, captions_enumFrom 0 vids,
    List.range_eq_range']
  simp

def colrec (t m p : String) : VideoRecord :=
  { path := p, abs_path := p, scene := "sc", task := t, model := m,
    run_id := "run_0", iter_name := "run_0", iter_num := 0 }

def colVids : List VideoRecord :=
  [colrec "a" "b-gpt-5" "p1", colrec "a-b" "gpt-5" "p2"]

/-- C6 counterexample: the two distinct pairs `("a", "b-gpt-5")` and
`("a-b", "gpt-5")` both produce the section identifier `"a-b-gpt-5"`, so
the rendered document contains two hidden sections sharing one
identifier. -/
theorem claim6_counterexample :
    (groupedKeys colVids).Nodup ∧ (groupedKeys colVids).length = 2 ∧
    docIds (groupedKeys colVids) (group_by_task_model colVids) =
      ["a-b-gpt-5", "a-b-gpt-5"] ∧
    ¬ (docIds (groupedKeys colVids) (group_by_task_model colVids)).Nodup := by
  refine ⟨by decide, by decide, ?_, ?_⟩
  · rw [docIds_eq]
    decide
  · rw [docIds_eq]
    decide

/-- C6 amended: the document has exactly N hidden section elements for N
distinct keys, each identified by `task ++ "-" ++ model`; identifiers are
pairwise distinct whenever that map is injective on the keys (dashes
inside `task`/`model` can defeat it). -/
theorem claim6_sections :
    ∀ (keys : List (String × String)) (g : String × String → List VideoRecord),
      keys.Nodup →
      (docIds keys g).length = keys.length ∧
      docIds keys g = (sortedKeys keys).map idOf ∧
      ((∀ k1 ∈ keys, ∀ k2 ∈ keys, idOf k1 = idOf k2 → k1 = k2) →
        (docIds keys g).Nodup) := by
  intro keys g hnd
  have hperm := pySort_perm pairLeB keys
  refine ⟨?_, docIds_eq keys g, ?_⟩
  · rw [docIds_eq, List.length_map]
    exact hperm.length_eq
  · intro hinj
    rw [docIds_eq]
    have hnd' : (sortedKeys keys).Nodup := hperm.nodup_iff.mpr hnd
    apply List.Nodup.map_on ?_ hnd'
    intro x hx y hy hxy
    exact hinj x (hperm.mem_iff.mp hx) y (hperm.mem_iff.mp hy) hxy

/-- Witness for C6 on two concrete keys with distinct identifiers. -/
theorem claim6_witness :
    (docIds [("t1", "gpt-5"), ("t2", "gpt-5")] (fun _ => [])).length = 2 ∧
    docIds [("t1", "gpt-5"), ("t2", "gpt-5")] (fun _ => []) =
      (sortedKeys [("t1", "gpt-5"), ("t2", "gpt-5")]).map idOf ∧
    (docIds [("t1", "gpt-5"), ("t2", "gpt-5")] (fun _ => [])).Nodup := by
  have h := claim6_sections [("t1", "gpt-5"), ("t2", "gpt-5")] (fun _ => []) (by decide)
  exact ⟨h.1, h.2.1, h.2.2 (by decide)⟩

/-! ## Claims about the empty-grouping and no-videos paths -/

/-- C4 counterexample: rendering the empty grouping does not proceed; the
reference code raises `IndexError` at `models_by_task[tasks[0]]`, modelled
by `Except.error ()`. -/
theorem claim4_counterexample :
    render_html [] (fun _ => []) = Except.error () := rfl

/-- C4 amended: on an empty computed task set, constructing the initial
model list fails (index error on `tasks[0]`) and no document is produced;
the path is unreachable in the reference flow because `main` prints the
no-videos comment and returns before rendering whenever the Locator
produced no records. -/
theorem claim4_empty_grouping_fails :
    (∀ (keys : List (String × String)) (g : String × String → List VideoRecord),
      tasksOf keys = [] → render_html keys g = Except.error ()) ∧
    (∀ (base : String) (outArg : Option String) (fs : FS),
      (find_videos base fs).2 = Except.ok [] →
      main_run base outArg fs =
        Except.ok ⟨(find_videos base fs).1 ++ [NO_VIDEOS_COMMENT], none⟩) := by
  constructor
  · intro keys g h
    unfold render_html
    rw [h]
  · intro base o fs h
    exact main_run_noVideos base o fs h

/-- Witness for C4 at the empty grouping and an empty filesystem. -/
theorem claim4_witness :
    render_html [] (fun _ => []) = Except.error () ∧
    main_run "/p" none ⟨true, []⟩ =
      Except.ok ⟨(find_videos "/p" ⟨true, []⟩).1 ++ [NO_VIDEOS_COMMENT], none⟩ :=
  ⟨claim4_empty_grouping_fails.1 [] (fun _ => []) rfl,
   claim4_empty_grouping_fails.2 "/p" none ⟨true, []⟩ rfl⟩

def emptyFS : FS := ⟨false, []⟩

/-- C5 counterexample: with an absent video root the process prints the
Locator's diagnostic line before the no-videos comment, so stdout is not
exactly the comment. -/
theorem claim5_counterexample :
    main_run "/proj" none emptyFS =
      Except.ok ⟨["Videos directory not found at /proj/static/videos/highlight-videos",
        NO_VIDEOS_COMMENT], none⟩ ∧
    ["Videos directory not found at /proj/static/videos/highlight-videos",
      NO_VIDEOS_COMMENT] ≠ [NO_VIDEOS_COMMENT] := by
  exact ⟨rfl, by decide⟩

/-- C5 amended: when the Locator finds no videos, `main` prints the literal
comment as its final line, writes no file and returns without invoking the
Aggregator or Renderer; exactly one Locator diagnostic line precedes the
comment on stdout. -/
theorem claim5_no_videos_output :
    ∀ (base : String) (outArg : Option String) (fs : FS),
      (find_videos base fs).2 = Except.ok [] →
      main_run base outArg fs =
        Except.ok ⟨(find_videos base fs).1 ++ [NO_VIDEOS_COMMENT], none⟩ ∧
      (find_videos base fs).1.length = 1 := by
  intro base o fs h
  exact ⟨main_run_noVideos base o fs h, find_videos_msgs_length base fs⟩

/-- Witness for C5 with an absent root and an `--out` argument. -/
theorem claim5_witness :
    main_run "/w" (some "out.html") emptyFS =
      Except.ok ⟨(find_videos "/w" emptyFS).1 ++ [NO_VIDEOS_COMMENT], none⟩ ∧
    (find_videos "/w" emptyFS).1.length = 1 :=
  claim5_no_videos_output "/w" (some "out.html") emptyFS rfl
